import Mathlib

/-!
Verification of the J1939 decoder pipeline of `PrepareMF4.py`
(Tyronnosaurus/J1939-Decoder).

The embedding models the per-line processing loop of `main` (lines 45-144),
the frame-decoding slices (lines 91-107), the identifier builder
(lines 116-121 together with `hexStr2binStr` / `binStr2HexStr`,
lines 244-250) and the PGN-label lookup (lines 135-140).

Conventions of the embedding:
* a log line is a `List Char`, given with its trailing newline stripped
  (the regexes of the script never match across the single trailing
  newline produced by `readlines`, so this loses nothing);
* Python strings are `List Char`; `int(s, 16)` / `int(s, 2)` are
  `hexStrVal` / `binStrVal` (digit-value folds);
* `bin(n)[2:]` and `"{0:X}".format(n)` are `pyBin` / `pyHexUp`,
  computed by fuel recursion so that everything evaluates by `decide`;
* the pandas dataframe is modelled by the list of finished rows plus the
  (possibly absent) row currently being written at index `i`: the script
  only ever writes cells at the current index `i`, so this captures the
  `df.at[i, col]` access pattern exactly, including the fact that a row
  abandoned by an exit clause stays behind until overwritten;
* an uncaught `AttributeError` (a `re.search(...)` returning `None`
  followed by `.group(1)`) is the `Except.error` case and aborts the
  whole run, exactly as the unhandled Python exception does.
-/

namespace J1939

set_option maxRecDepth 10000

/-! ## Plain string utilities -/

/-- Models Python whitespace for `str.strip`. -/
def isPySpace (c : Char) : Bool :=
  c = ' ' || c = '\n' || c = '\t' || c = '\r' || c = '\x0b' || c = '\x0c'

/-- Models Python `s.strip()`. -/
def pyStrip (s : List Char) : List Char :=
  ((s.dropWhile isPySpace).reverse.dropWhile isPySpace).reverse

/-- `leadsWith pat s` holds when `pat` occurs at the very start of `s`. -/
def leadsWith : List Char → List Char → Bool
  | [], _ => true
  | _ :: _, [] => false
  | a :: as, b :: bs => a = b && leadsWith as bs

/-- `strContains hay pat` models Python `pat in hay` (substring test). -/
def strContains : List Char → List Char → Bool
  | [], pat => pat.isEmpty
  | c :: rest, pat => leadsWith pat (c :: rest) || strContains rest pat

/-- Suffix of `hay` following the first occurrence of the literal `pat`;
`none` when `pat` does not occur.  Models the remainder scanned by the
group of `re.search("LIT(...)", hay)` for a literal `LIT`. -/
def afterFirst : List Char → List Char → Option (List Char)
  | [], pat => if pat.isEmpty then some [] else none
  | c :: rest, pat =>
    if leadsWith pat (c :: rest) then some ((c :: rest).drop pat.length)
    else afterFirst rest pat

/-- The part of `hay` before the last occurrence of the literal `pat`;
`none` when `pat` does not occur.  Models group 1 of
`re.search(r"^(.*) \(", hay)`: the pattern is anchored, `.*` is greedy,
so the group is everything before the last occurrence of the literal. -/
def beforeLast (hay pat : List Char) : Option (List Char) :=
  (((List.range (hay.length + 1)).filter
      (fun i => leadsWith pat (hay.drop i))).getLast?).map
    (fun i => hay.take i)

/-- Digit run following the first occurrence of `pat`, as matched by the
group of `re.search("PAT([0-9]*)", hay)`; `none` when the literal `pat`
is absent (in that case `.group(1)` raises `AttributeError`). -/
def digitsAfter (hay pat : List Char) : Option (List Char) :=
  (afterFirst hay pat).map (fun s => s.takeWhile Char.isDigit)

/-- Character class `[0-9A-F ]` of the data-group regex (line 77). -/
def isHexSp (c : Char) : Bool :=
  ('0' ≤ c && c ≤ '9') || ('A' ≤ c && c ≤ 'F') || c = ' '

/-- Character class `[0-9A-F]`. -/
def isHexUp (c : Char) : Bool :=
  ('0' ≤ c && c ≤ '9') || ('A' ≤ c && c ≤ 'F')

/-- Models `len(re.findall("( [0-9A-F]{2})", s))` (line 78): counts the
non-overlapping, left-to-right matches of a space followed by two
uppercase hex digits. -/
def countPairs : List Char → Nat
  | c1 :: c2 :: c3 :: rest =>
    if c1 = ' ' && isHexUp c2 && isHexUp c3 then countPairs rest + 1
    else countPairs (c2 :: c3 :: rest)
  | _ => 0

/-- Models the Python slice `s[a:b]` (for `0 ≤ a ≤ b`). -/
def sliceStr (s : List Char) (a b : Nat) : List Char :=
  (s.drop a).take (b - a)

/-! ## Numeric conversions: `int(s, base)`, `bin`, `"{0:X}".format` -/

/-- Value of one hex digit, as accepted by Python `int(s, 16)`; the
ranges are the code points of `0-9`, `A-F`, `a-f`.  Non-hex characters
are given the junk value `0`; every string this is applied to in the
pipeline is validated by the `[0-9A-F]` regex first. -/
def hexCharVal (c : Char) : Nat :=
  if 48 ≤ c.toNat && c.toNat ≤ 57 then c.toNat - 48
  else if 65 ≤ c.toNat && c.toNat ≤ 70 then c.toNat - 55
  else if 97 ≤ c.toNat && c.toNat ≤ 102 then c.toNat - 87
  else 0

/-- Value of one binary digit, as accepted by Python `int(s, 2)`. -/
def binCharVal (c : Char) : Nat :=
  if c = '1' then 1 else 0

/-- Big-endian value of a digit list in base `b`. -/
def valBE (b : Nat) (ds : List Nat) : Nat :=
  ds.foldl (fun a d => b * a + d) 0

/-- Models Python `int(s, 16)` on validated input. -/
def hexStrVal (s : List Char) : Nat :=
  valBE 16 (s.map hexCharVal)

/-- Models Python `int(s, 2)` on validated input. -/
def binStrVal (s : List Char) : Nat :=
  valBE 2 (s.map binCharVal)

/-- Big-endian digits of `n` in base `b`, by fuel recursion
(the fuel `n + 1` always suffices since `n` at least halves each step). -/
def digitsRevAux (b : Nat) : Nat → Nat → List Nat → List Nat
  | 0, _, acc => acc
  | fuel + 1, n, acc =>
    if n < b then n :: acc
    else digitsRevAux b fuel (n / b) (n % b :: acc)

/-- Big-endian base-`b` digits of `n`; `[0]` for `n = 0`. -/
def natDigitsBE (b n : Nat) : List Nat :=
  digitsRevAux b (n + 1) n []

/-- Models Python `bin(n)[2:]` for `n ≥ 0`. -/
def pyBin (n : Nat) : List Char :=
  (natDigitsBE 2 n).map Nat.digitChar

/-- Uppercase hex digit character, as produced by Python `"{0:X}"`. -/
def hexUpChar (d : Nat) : Char :=
  if d < 10 then Nat.digitChar d else Char.ofNat (55 + d)

/-- Models Python `"{0:X}".format(n)` (uppercase hex, no padding). -/
def pyHexUp (n : Nat) : List Char :=
  (natDigitsBE 16 n).map hexUpChar

/-- Models Python `s.zfill(w)` on digit strings (left-pad with `'0'`;
never truncates). -/
def zfill (s : List Char) (w : Nat) : List Char :=
  List.replicate (w - s.length) '0' ++ s

/-- Source `hexStr2binStr` (lines 244-245):
`bin(int(hexStr, 16))[2:].zfill(numBits)`. -/
def hexStr2binStr (hexStr : List Char) (numBits : Nat) : List Char :=
  zfill (pyBin (hexStrVal hexStr)) numBits

/-- Source `binStr2HexStr` (lines 249-250):
`"{0:0>4X}".format(int(binStr, 2))` — uppercase hex left-padded with
`'0'` to width 4. -/
def binStr2HexStr (binStr : List Char) : List Char :=
  zfill (pyHexUp (binStrVal binStr)) 4

/-- The IdBuilder stage (lines 116-121): concatenate the binary strings
of priority (3 bits), PGN (18 bits) and source (8 bits) and render the
result in hex.  This is the value stored in the `ID` column. -/
def idBuilder (priorityHx pgnHx sourceHx : List Char) : List Char :=
  binStr2HexStr
    (hexStr2binStr priorityHx 3 ++ hexStr2binStr pgnHx 18 ++
      hexStr2binStr sourceHx 8)

/-! ## FrameDecoder: slices of the 38-character payload (lines 91-97) -/

/-- `dataBytes_hex[0:8]` — timestamp bytes (big-endian IEEE-754 float;
the float decode itself is I/O-level and outside this embedding). -/
def timestampHexOf (s : List Char) : List Char := sliceStr s 0 8

/-- `dataBytes_hex[8:10]` — echo byte. -/
def echoByteOf (s : List Char) : List Char := sliceStr s 8 10

/-- Line 93: `dataBytes_hex[14:16] + dataBytes_hex[12:14] +
dataBytes_hex[10:12]` — the PGN bytes, stored little-endian in the blob
and reversed here. -/
def pgnHexOf (s : List Char) : List Char :=
  sliceStr s 14 16 ++ sliceStr s 12 14 ++ sliceStr s 10 12

/-- `dataBytes_hex[16:18]` — priority byte. -/
def priorityHexOf (s : List Char) : List Char := sliceStr s 16 18

/-- `dataBytes_hex[18:20]` — source address byte. -/
def sourceHexOf (s : List Char) : List Char := sliceStr s 18 20

/-- `dataBytes_hex[20:22]` — destination address byte. -/
def destinationHexOf (s : List Char) : List Char := sliceStr s 20 22

/-- `dataBytes_hex[22:38]` — the 8 payload bytes. -/
def payloadHexOf (s : List Char) : List Char := sliceStr s 22 38

/-- Line 135: `int(pgn_hex, 16)` — the decoded PGN as an integer. -/
def pgnDecOf (s : List Char) : Nat := hexStrVal (pgnHexOf s)

/-- Byte value stored at byte offset `k` of the blob (two hex chars). -/
def byteAt (s : List Char) (k : Nat) : Nat :=
  hexStrVal (sliceStr s (2 * k) (2 * k + 2))

/-- The built 29-bit identifier of a payload, as the unsigned integer the
MF4 stage reads back with `int(x, 16)` (line 176) from the `ID` column. -/
def canIdOf (s : List Char) : Nat :=
  hexStrVal (idBuilder (priorityHexOf s) (pgnHexOf s) (sourceHexOf s))

/-! ## PgnAnnotator: the label lookup (lines 135-140) -/

/-- One row of the externally supplied `PGN list.csv` table. -/
structure PgnEntry where
  pgn : Nat
  label : List Char
  inDbc : List Char
  deriving DecidableEq

/-- Lines 137-138: `pgn_df[pgn_df["PGN"] == pgn_dec]` filtered subset,
then `iloc[0]` when the subset is nonempty. -/
def pgnLookup (tbl : List PgnEntry) (p : Nat) : Option PgnEntry :=
  (tbl.filter (fun e => e.pgn == p)).head?

/-! ## The per-line pipeline (the `for line in lines` loop, lines 45-144) -/

/-- One row of the accumulating dataframe `df`.  A cell never written is
`none` (pandas `NaN`).  The constant boilerplate columns (`BusChannel`,
`IDE`, `DLC`, `Dir`, `EDL`, `BRS`, lines 125-130) carry no per-line
information and are omitted. -/
structure Row where
  original : Option (List Char) := none
  logTimestamp : Option (List Char) := none
  logID : Option (List Char) := none
  ret : Option (List Char) := none
  sz : Option (List Char) := none
  blk : Option (List Char) := none
  logDataBytes : Option (List Char) := none
  timestampHex : Option (List Char) := none
  echoByte : Option (List Char) := none
  pgn : Option (List Char) := none
  priority : Option (List Char) := none
  source : Option (List Char) := none
  destination : Option (List Char) := none
  dataBytes : Option (List Char) := none
  dataLen : Option Nat := none
  idHex : Option (List Char) := none
  pgnLabel : Option (List Char) := none
  pgnInDbc : Option (List Char) := none
  deriving DecidableEq

/-- The all-`NaN` row. -/
def emptyRow : Row := {}

/-- The dataframe together with the row counter `i`: `done` holds the
rows at indices `0 .. i-1` (each finished by an `i += 1`), `cur` the row
at index `i` when some cell of it has been written.  The script only
ever writes at the current index `i`, so this models the `df.at[i, col]`
writes exactly — including a row left behind by an exit clause, which
stays (and keeps its already-written cells, e.g. a stale `Blk`) until
overwritten or until the run ends. -/
structure PipeState where
  done : List Row := []
  cur : Option Row := none
  deriving DecidableEq

/-- The uncaught Python exception: `re.search(...)` returned `None` and
`.group(1)` raised `AttributeError`.  The field records which search
failed. -/
inductive PyAbort where
  | attributeError (field : String)
  deriving DecidableEq

deriving instance DecidableEq for Except

/-- The `Data:` eligibility marker (line 47). -/
def markerLit : List Char := String.toList (r"Data:")

/-- The literal of `re.search(r"^(.*) \(", line)` (line 66). -/
def tsLit : List Char := String.toList (r" (")

/-- The literal of `re.search("ID = ([0-9]*)", line)` (line 69). -/
def idLit : List Char := String.toList (r"ID = ")

/-- The literal of `re.search("Ret = ([0-9]*)", line)` (line 70). -/
def retLit : List Char := String.toList (r"Ret = ")

/-- The literal of `re.search("Sz = ([0-9]*)", line)` (line 71). -/
def szLit : List Char := String.toList (r"Sz = ")

/-- The literal of `re.search("Blk = ([0-9]*)", line)` (line 73). -/
def blkLit : List Char := String.toList (r"Blk = ")

/-- The literal of `re.search("Data: ([0-9A-F ]*)", line)` (line 77);
unlike the marker it requires the space after the colon. -/
def dataLit : List Char := String.toList (r"Data: ")

/-- The data group of a line: the `[0-9A-F ]*` run following the first
occurrence of `"Data: "` (line 77), `[]` when the literal is absent. -/
def dataGroupOf (line : List Char) : List Char :=
  ((afterFirst line dataLit).getD []).takeWhile isHexSp

/-- Lines 135-140 applied to a row: write the label columns from the
first matching table entry, or leave them untouched when there is no
match. -/
def applyPgnInfo (r : Row) (o : Option PgnEntry) : Row :=
  match o with
  | some e => { r with pgnLabel := some e.label, pgnInDbc := some e.inDbc }
  | none => r

/-- One iteration of the `for line in lines` loop (lines 45-144). -/
def stepLine (tbl : List PgnEntry) (st : PipeState) (line : List Char) :
    Except PyAbort PipeState :=
  if strContains line markerLit = false then Except.ok st   -- line 47
  else
    let r0 := st.cur.getD emptyRow
    let r1 := { r0 with original := some (pyStrip line) }   -- line 49
    match beforeLast line tsLit with                        -- line 66
    | none => Except.error (PyAbort.attributeError (r"LogTimestamp"))
    | some ts =>
      let r2 := { r1 with logTimestamp := some ts }
      match digitsAfter line idLit with                     -- line 69
      | none => Except.error (PyAbort.attributeError (r"LogID"))
      | some idDigits =>
        let r3 := { r2 with logID := some idDigits }
        match digitsAfter line retLit with                  -- line 70
        | none => Except.error (PyAbort.attributeError (r"Ret"))
        | some retDigits =>
          let r4 := { r3 with ret := some retDigits }
          match digitsAfter line szLit with                 -- line 71
          | none => Except.error (PyAbort.attributeError (r"Sz"))
          | some szDigits =>
            let r5 := { r4 with sz := some szDigits }
            let r6 := match digitsAfter line blkLit with    -- lines 73-74
              | some blkDigits => { r5 with blk := some blkDigits }
              | none => r5
            match afterFirst line dataLit with              -- line 77
            | none => Except.error (PyAbort.attributeError (r"DataBytes"))
            | some afterData =>
              let grp := afterData.takeWhile isHexSp
              let dataLength := countPairs grp              -- line 78
              let dataHex := grp.filter (fun c => c ≠ ' ')  -- line 79
              let r7 := { r6 with logDataBytes := some dataHex }
              if dataLength < 19 then                       -- line 82
                Except.ok { st with cur := some r7 }
              else
                let r8 := { r7 with                         -- lines 91-107
                  timestampHex := some (timestampHexOf dataHex),
                  echoByte := some (echoByteOf dataHex),
                  pgn := some (pgnHexOf dataHex),
                  priority := some (priorityHexOf dataHex),
                  source := some (sourceHexOf dataHex),
                  destination := some (destinationHexOf dataHex),
                  dataBytes := some (payloadHexOf dataHex),
                  dataLen := some ((payloadHexOf dataHex).length / 2),
                  idHex := some (idBuilder (priorityHexOf dataHex)
                    (pgnHexOf dataHex) (sourceHexOf dataHex)) }
                let r9 := applyPgnInfo r8
                  (pgnLookup tbl (pgnDecOf dataHex))        -- lines 135-140
                Except.ok { done := st.done ++ [r9], cur := none }  -- 144

/-- The loop over all lines; the first uncaught exception aborts it. -/
def runLines (tbl : List PgnEntry) :
    PipeState → List (List Char) → Except PyAbort PipeState
  | st, [] => Except.ok st
  | st, l :: ls =>
    match stepLine tbl st l with
    | Except.error e => Except.error e
    | Except.ok st' => runLines tbl st' ls

/-- The whole run: the rows of the final dataframe, in order — the
finished rows followed by the pending row when one was left behind.  On
an uncaught exception the script dies before writing any output. -/
def runPipeline (tbl : List PgnEntry) (lines : List (List Char)) :
    Except PyAbort (List Row) :=
  match runLines tbl {} lines with
  | Except.error e => Except.error e
  | Except.ok st => Except.ok (st.done ++ st.cur.toList)

/-- `true` on `Except.ok`. -/
def exOk {ε α : Type} : Except ε α → Bool
  | Except.ok _ => true
  | Except.error _ => false

/-- The five literal patterns whose absence makes one of the mandatory
`re.search(...).group(1)` calls raise. -/
def requiredLits (line : List Char) : Bool :=
  strContains line tsLit && strContains line idLit &&
    strContains line retLit && strContains line szLit &&
    strContains line dataLit

/-- The state resulting from a successful step (junk on an abort; only
ever read under an `exOk` hypothesis). -/
def stepState (x : Except PyAbort PipeState) : PipeState :=
  match x with
  | Except.ok st => st
  | Except.error _ => {}

/-- The row the last successful step wrote: the pending row when the
step stopped at an exit clause, otherwise the last finished row. -/
def writtenRow (st : PipeState) : Row :=
  st.cur.getD (st.done.getLastD emptyRow)

/-- The row as it stands right after the log-entry fields are written
(lines 49-80), before the 19-byte gate. -/
def shortRowOf (st : PipeState) (line : List Char) : Row :=
  let r0 := st.cur.getD emptyRow
  { r0 with
    original := some (pyStrip line),
    logTimestamp := beforeLast line tsLit,
    logID := digitsAfter line idLit,
    ret := digitsAfter line retLit,
    sz := digitsAfter line szLit,
    blk := match digitsAfter line blkLit with
      | some b => some b
      | none => r0.blk,
    logDataBytes := some ((dataGroupOf line).filter (fun c => c ≠ ' ')) }

/-- The fully decoded and annotated row produced when the data section
passes the 19-byte gate (lines 91-140). -/
def fullRowOf (tbl : List PgnEntry) (st : PipeState) (line : List Char) :
    Row :=
  let dataHex := (dataGroupOf line).filter (fun c => c ≠ ' ')
  applyPgnInfo
    { shortRowOf st line with
      timestampHex := some (timestampHexOf dataHex),
      echoByte := some (echoByteOf dataHex),
      pgn := some (pgnHexOf dataHex),
      priority := some (priorityHexOf dataHex),
      source := some (sourceHexOf dataHex),
      destination := some (destinationHexOf dataHex),
      dataBytes := some (payloadHexOf dataHex),
      dataLen := some ((payloadHexOf dataHex).length / 2),
      idHex := some (idBuilder (priorityHexOf dataHex) (pgnHexOf dataHex)
        (sourceHexOf dataHex)) }
    (pgnLookup tbl (pgnDecOf dataHex))

/-! ## Concrete inputs used by the claims -/

/-- The 19-byte payload of the spec's concrete scenario (also the line
documented at line 59 of the script). -/
def examplePayload : List Char :=
  String.toList (r"0011EEB00020FF000300FF1021000000FFD0FF")

/-- A 19-byte payload whose third stored PGN byte (offset 7) is `FF`. -/
def overflowPayload : List Char :=
  String.toList (r"0011EEB0000000FF0300FF1021000000FFD0FF")

/-- The example log line from the script's own documentation (line 59). -/
def goodLine : List Char := String.toList
  (r"000001.226604 (000.003827)  Rx() ID = 00 Ret = 0019 Sz = 02048 Blk = 1 Data:  00 11 EE B0 00 20 FF 00 03 00 FF 10 21 00 00 00 FF D0 FF")

/-- The same line with the `ID = ` field removed: the `Data:` marker is
present but a required pattern cannot match. -/
def badNoIdLine : List Char := String.toList
  (r"000001.226604 (000.003827)  Rx() Ret = 0019 Sz = 02048 Blk = 1 Data:  00 11 EE B0 00 20 FF 00 03 00 FF 10 21 00 00 00 FF D0 FF")

/-- The example line truncated to a 2-byte data section. -/
def shortLine : List Char := String.toList
  (r"000001.226604 (000.003827)  Rx() ID = 00 Ret = 0019 Sz = 02048 Blk = 1 Data:  00 11")

/-- A line whose required integer fields are followed by zero digits. -/
def zeroDigitLine : List Char :=
  String.toList (r"1 (ID = Ret = Sz = Data: 00")

/-- A line containing the bare `Data:` marker, every required literal
field, but no space after the marker's colon. -/
def noSpaceDataLine : List Char :=
  String.toList (r"1 (ID = Ret = Sz = Data:")

/-- The row left in the dataframe by `shortLine`: the log-entry cells
are written, every decoded cell is still `NaN`. -/
def shortLineRow : Row :=
  { original := some shortLine,
    logTimestamp := some (String.toList (r"000001.226604")),
    logID := some (String.toList (r"00")),
    ret := some (String.toList (r"0019")),
    sz := some (String.toList (r"02048")),
    blk := some (String.toList (r"1")),
    logDataBytes := some (String.toList (r"0011")) }

/-- A lookup table with a duplicated PGN, for the tie-break check. -/
def dupTable : List PgnEntry :=
  [⟨65312, String.toList (r"first label"), String.toList (r"Yes")⟩,
    ⟨65312, String.toList (r"second label"), String.toList (r"No")⟩]

/-! ## Value and length lemmas for the digit-string arithmetic -/

theorem valBE_foldl_start (b : Nat) (y : List Nat) (a : Nat) :
    y.foldl (fun a d => b * a + d) a = a * b ^ y.length + valBE b y := by
  induction y generalizing a with
  | nil => simp [valBE]
  | cons d ds ih =>
    simp only [List.foldl_cons, List.length_cons]
    rw [ih (b * a + d)]
    have h0 : valBE b (d :: ds) = d * b ^ ds.length + valBE b ds := by
      show ds.foldl (fun a d => b * a + d) (b * 0 + d) = _
      rw [ih (b * 0 + d)]
      ring
    rw [h0]
    ring

theorem valBE_append (b : Nat) (x y : List Nat) :
    valBE b (x ++ y) = valBE b x * b ^ y.length + valBE b y := by
  rw [show valBE b (x ++ y) = (x ++ y).foldl (fun a d => b * a + d) 0 from
      rfl, List.foldl_append, valBE_foldl_start]
  rfl

theorem valBE_replicate_zero (b k : Nat) :
    valBE b (List.replicate k 0) = 0 := by
  induction k with
  | zero => rfl
  | succ k ih =>
    simp only [List.replicate_succ, valBE, List.foldl_cons]
    simpa [valBE] using ih

theorem binStrVal_append (x y : List Char) :
    binStrVal (x ++ y) = binStrVal x * 2 ^ y.length + binStrVal y := by
  simp [binStrVal, List.map_append, valBE_append]

theorem hexStrVal_append (x y : List Char) :
    hexStrVal (x ++ y) = hexStrVal x * 16 ^ y.length + hexStrVal y := by
  simp [hexStrVal, List.map_append, valBE_append]

theorem binStrVal_zfill (s : List Char) (w : Nat) :
    binStrVal (zfill s w) = binStrVal s := by
  rw [zfill, binStrVal_append]
  have h : binStrVal (List.replicate (w - s.length) '0') = 0 := by
    simp [binStrVal, List.map_replicate, binCharVal, valBE_replicate_zero]
  rw [h]
  ring

theorem hexStrVal_zfill (s : List Char) (w : Nat) :
    hexStrVal (zfill s w) = hexStrVal s := by
  rw [zfill, hexStrVal_append]
  have h : hexStrVal (List.replicate (w - s.length) '0') = 0 := by
    simp [hexStrVal, List.map_replicate, hexCharVal, valBE_replicate_zero]
  rw [h]
  ring

theorem zfill_length (s : List Char) (w : Nat) :
    (zfill s w).length = max w s.length := by
  simp [zfill]
  omega

theorem digitsRevAux_acc (b : Nat) :
    ∀ (f n : Nat) (acc : List Nat),
      digitsRevAux b f n acc = digitsRevAux b f n [] ++ acc := by
  intro f
  induction f with
  | zero => intro n acc; rfl
  | succ f ih =>
    intro n acc
    by_cases h : n < b
    · simp [digitsRevAux, h]
    · simp only [digitsRevAux, if_neg h]
      rw [ih (n / b) (n % b :: acc), ih (n / b) [n % b], List.append_assoc]
      rfl

theorem digitsRevAux_fuel (b : Nat) (hb : 2 ≤ b) :
    ∀ (f g n : Nat) (acc : List Nat), n < f → n < g →
      digitsRevAux b f n acc = digitsRevAux b g n acc := by
  intro f
  induction f with
  | zero => intro g n acc hf; omega
  | succ f ih =>
    intro g n acc hf hg
    cases g with
    | zero => omega
    | succ g =>
      by_cases h : n < b
      · simp [digitsRevAux, h]
      · simp only [digitsRevAux, if_neg h]
        have hdiv : n / b < n := Nat.div_lt_self (by omega) (by omega)
        exact ih g (n / b) (n % b :: acc) (by omega) (by omega)

theorem natDigitsBE_small {b n : Nat} (h : n < b) :
    natDigitsBE b n = [n] := by
  simp [natDigitsBE, digitsRevAux, h]

theorem natDigitsBE_cons {b n : Nat} (hb : 2 ≤ b) (h : b ≤ n) :
    natDigitsBE b n = natDigitsBE b (n / b) ++ [n % b] := by
  have hdiv : n / b < n := Nat.div_lt_self (by omega) (by omega)
  rw [natDigitsBE, digitsRevAux, if_neg (by omega),
    digitsRevAux_fuel b hb n (n / b + 1) (n / b) _ (by omega) (by omega),
    show digitsRevAux b (n / b + 1) (n / b) [n % b]
        = natDigitsBE b (n / b) ++ [n % b] from
      digitsRevAux_acc b (n / b + 1) (n / b) [n % b]]

theorem natDigitsBE_val {b : Nat} (hb : 2 ≤ b) :
    ∀ n, valBE b (natDigitsBE b n) = n := by
  intro n
  induction n using Nat.strong_induction_on with
  | _ n ih =>
    by_cases h : n < b
    · rw [natDigitsBE_small h]; simp [valBE]
    · rw [natDigitsBE_cons hb (by omega), valBE_append,
        ih (n / b) (Nat.div_lt_self (by omega) (by omega))]
      simp only [List.length_singleton, pow_one]
      have hv : valBE b [n % b] = n % b := by simp [valBE]
      rw [hv, Nat.mul_comm]
      exact Nat.div_add_mod n b

theorem natDigitsBE_digit_lt {b : Nat} (hb : 2 ≤ b) :
    ∀ n, ∀ d ∈ natDigitsBE b n, d < b := by
  intro n
  induction n using Nat.strong_induction_on with
  | _ n ih =>
    by_cases h : n < b
    · rw [natDigitsBE_small h]; simpa using h
    · rw [natDigitsBE_cons hb (by omega)]
      intro d hd
      rcases List.mem_append.1 hd with hd | hd
      · exact ih (n / b) (Nat.div_lt_self (by omega) (by omega)) d hd
      · simp only [List.mem_singleton] at hd
        subst hd
        exact Nat.mod_lt _ (by omega)

theorem natDigitsBE_len_le {b : Nat} (hb : 2 ≤ b) :
    ∀ n w, 1 ≤ w → n < b ^ w → (natDigitsBE b n).length ≤ w := by
  intro n
  induction n using Nat.strong_induction_on with
  | _ n ih =>
    intro w hw hn
    by_cases h : n < b
    · rw [natDigitsBE_small h]; simpa using hw
    · rw [natDigitsBE_cons hb (by omega)]
      have hw2 : 2 ≤ w := by
        rcases Nat.lt_or_ge w 2 with hlt | hge
        · interval_cases w
          · simp at hn; omega
        · exact hge
      have hdivlt : n / b < b ^ (w - 1) := by
        have hbpos : 0 < b := by omega
        rw [Nat.div_lt_iff_lt_mul hbpos]
        have : b ^ (w - 1) * b = b ^ w := by
          rw [← Nat.pow_succ]
          congr 1
          omega
        omega
      have := ih (n / b) (Nat.div_lt_self (by omega) (by omega))
        (w - 1) (by omega) hdivlt
      simp only [List.length_append, List.length_singleton]
      omega

theorem binCharVal_digitChar {d : Nat} (h : d < 2) :
    binCharVal (Nat.digitChar d) = d := by
  interval_cases d <;> decide

theorem hexCharVal_hexUpChar {d : Nat} (h : d < 16) :
    hexCharVal (hexUpChar d) = d := by
  interval_cases d <;> decide

theorem pyBin_val (n : Nat) : binStrVal (pyBin n) = n := by
  rw [pyBin, binStrVal, List.map_map]
  have hmap : (natDigitsBE 2 n).map (binCharVal ∘ Nat.digitChar)
      = (natDigitsBE 2 n).map id :=
    List.map_congr_left (fun d hd =>
      binCharVal_digitChar (natDigitsBE_digit_lt (by omega) n d hd))
  rw [hmap, List.map_id]
  exact natDigitsBE_val (by omega) n

theorem pyHexUp_val (n : Nat) : hexStrVal (pyHexUp n) = n := by
  rw [pyHexUp, hexStrVal, List.map_map]
  have hmap : (natDigitsBE 16 n).map (hexCharVal ∘ hexUpChar)
      = (natDigitsBE 16 n).map id :=
    List.map_congr_left (fun d hd =>
      hexCharVal_hexUpChar (natDigitsBE_digit_lt (by omega) n d hd))
  rw [hmap, List.map_id]
  exact natDigitsBE_val (by omega) n

theorem pyBin_len_le {n w : Nat} (hw : 1 ≤ w) (hn : n < 2 ^ w) :
    (pyBin n).length ≤ w := by
  rw [pyBin, List.length_map]
  exact natDigitsBE_len_le (by omega) n w hw hn

theorem hexStr2binStr_val (s : List Char) (w : Nat) :
    binStrVal (hexStr2binStr s w) = hexStrVal s := by
  rw [hexStr2binStr, binStrVal_zfill, pyBin_val]

theorem hexStr2binStr_length (s : List Char) (w : Nat) :
    (hexStr2binStr s w).length = max w (pyBin (hexStrVal s)).length := by
  rw [hexStr2binStr, zfill_length]

theorem hexStr2binStr_length_of_lt {s : List Char} {w : Nat}
    (hw : 1 ≤ w) (h : hexStrVal s < 2 ^ w) :
    (hexStr2binStr s w).length = w := by
  rw [hexStr2binStr_length]
  have := pyBin_len_le hw h
  omega

theorem binStr2HexStr_val (s : List Char) :
    hexStrVal (binStr2HexStr s) = binStrVal s := by
  rw [binStr2HexStr, hexStrVal_zfill, pyHexUp_val]

/-! ## Value bounds -/

theorem hexCharVal_lt (c : Char) : hexCharVal c < 16 := by
  unfold hexCharVal
  split_ifs with h1 h2 h3 <;>
    simp only [Bool.and_eq_true, decide_eq_true_eq] at * <;> omega

theorem valBE_lt (b : Nat) (_hb : 1 ≤ b) :
    ∀ ds : List Nat, (∀ d ∈ ds, d < b) → valBE b ds < b ^ ds.length := by
  intro ds
  induction ds with
  | nil => intro _; simp [valBE]
  | cons d ds ih =>
    intro h
    have hd : d < b := h d (List.mem_cons_self d ds)
    have hds : valBE b ds < b ^ ds.length :=
      ih (fun x hx => h x (List.mem_cons_of_mem d hx))
    have hval : valBE b (d :: ds) = d * b ^ ds.length + valBE b ds := by
      show ds.foldl (fun a d => b * a + d) (b * 0 + d) = _
      rw [valBE_foldl_start]
      ring
    rw [hval, List.length_cons, pow_succ]
    calc d * b ^ ds.length + valBE b ds
        < d * b ^ ds.length + b ^ ds.length := by omega
      _ = (d + 1) * b ^ ds.length := by ring
      _ ≤ b * b ^ ds.length := Nat.mul_le_mul_right _ (by omega)
      _ = b ^ ds.length * b := Nat.mul_comm _ _

theorem hexStrVal_lt (s : List Char) : hexStrVal s < 16 ^ s.length := by
  have := valBE_lt 16 (by omega) (s.map hexCharVal)
    (by intro d hd
        rcases List.mem_map.1 hd with ⟨c, _, rfl⟩
        exact hexCharVal_lt c)
  simpa [hexStrVal] using this

theorem sliceStr_length (s : List Char) (a b : Nat) :
    (sliceStr s a b).length = min (b - a) (s.length - a) := by
  simp [sliceStr]

theorem byteAt_lt (s : List Char) (k : Nat) : byteAt s k < 256 := by
  have h := hexStrVal_lt (sliceStr s (2 * k) (2 * k + 2))
  have hlen : (sliceStr s (2 * k) (2 * k + 2)).length ≤ 2 := by
    rw [sliceStr_length]
    omega
  have : (16 : Nat) ^ (sliceStr s (2 * k) (2 * k + 2)).length ≤ 16 ^ 2 :=
    Nat.pow_le_pow_right (by omega) hlen
  unfold byteAt
  omega

/-! ## The identifier's value -/

/-- Width actually occupied by a field of nominal width `w` holding the
value `n`: `zfill` pads to `w` but never truncates, so an oversized
value widens its field. -/
def fieldWidth (n w : Nat) : Nat := max w (pyBin n).length

theorem idBuilder_val (pHex gHex sHex : List Char) :
    hexStrVal (idBuilder pHex gHex sHex)
      = hexStrVal pHex
          * 2 ^ (fieldWidth (hexStrVal gHex) 18 +
              fieldWidth (hexStrVal sHex) 8)
        + hexStrVal gHex * 2 ^ fieldWidth (hexStrVal sHex) 8
        + hexStrVal sHex := by
  rw [idBuilder, binStr2HexStr_val, binStrVal_append, binStrVal_append,
    hexStr2binStr_val, hexStr2binStr_val, hexStr2binStr_val,
    hexStr2binStr_length, hexStr2binStr_length, ← fieldWidth,
    ← fieldWidth, pow_add]
  ring

theorem idBuilder_val_inRange {pHex gHex sHex : List Char}
    (hg : hexStrVal gHex < 2 ^ 18) (hs : hexStrVal sHex < 2 ^ 8) :
    hexStrVal (idBuilder pHex gHex sHex)
      = hexStrVal pHex * 2 ^ 26 + hexStrVal gHex * 2 ^ 8
        + hexStrVal sHex := by
  have hwg : fieldWidth (hexStrVal gHex) 18 = 18 := by
    have := pyBin_len_le (by omega) hg
    unfold fieldWidth
    omega
  have hws : fieldWidth (hexStrVal sHex) 8 = 8 := by
    have := pyBin_len_le (by omega) hs
    unfold fieldWidth
    omega
  rw [idBuilder_val, hwg, hws]


/-! ## Helper: three disjoint bit fields, or-form versus sum-form -/

theorem shift_or_decomp (b2 b1 b0 : Nat) (h1 : b1 < 256) (h0 : b0 < 256) :
    b2 <<< 16 ||| b1 <<< 8 ||| b0 = b2 * 65536 + b1 * 256 + b0 := by
  have h0' : b0 < 2 ^ 8 := by omega
  have hX : 2 ^ 8 * b1 + b0 < 2 ^ 16 := by norm_num; omega
  rw [Nat.shiftLeft_eq, Nat.shiftLeft_eq, Nat.or_assoc,
    Nat.mul_comm b1 (2 ^ 8), ← Nat.mul_add_lt_is_or h0' b1,
    Nat.mul_comm b2 (2 ^ 16), ← Nat.mul_add_lt_is_or hX b2]
  norm_num
  ring

/-! ## Search lemmas: option results versus substring containment -/

theorem leadsWith_nil (pat : List Char) :
    leadsWith pat [] = pat.isEmpty := by
  cases pat <;> rfl

theorem afterFirst_none_iff (hay pat : List Char) :
    afterFirst hay pat = none ↔ strContains hay pat = false := by
  induction hay with
  | nil =>
    by_cases h : pat.isEmpty = true <;> simp [afterFirst, strContains, h]
  | cons c rest ih =>
    by_cases h : leadsWith pat (c :: rest) = true
    · simp [afterFirst, strContains, h]
    · have hfalse : leadsWith pat (c :: rest) = false := by
        rwa [Bool.not_eq_true] at h
      simp [afterFirst, strContains, hfalse, ih]

theorem digitsAfter_none_iff (hay pat : List Char) :
    digitsAfter hay pat = none ↔ strContains hay pat = false := by
  rw [digitsAfter, Option.map_eq_none']
  exact afterFirst_none_iff hay pat

theorem strContains_iff_exists (hay pat : List Char) :
    strContains hay pat = true
      ↔ ∃ i, i ≤ hay.length ∧ leadsWith pat (hay.drop i) = true := by
  induction hay with
  | nil =>
    simp only [strContains, List.length_nil, Nat.le_zero]
    constructor
    · intro h
      exact ⟨0, rfl, by rwa [List.drop_nil, leadsWith_nil]⟩
    · rintro ⟨i, rfl, h⟩
      rwa [List.drop_nil, leadsWith_nil] at h
  | cons c rest ih =>
    simp only [strContains, Bool.or_eq_true, ih, List.length_cons]
    constructor
    · rintro (h | ⟨j, hj, h⟩)
      · exact ⟨0, by omega, by simpa using h⟩
      · exact ⟨j + 1, by omega, by simpa using h⟩
    · rintro ⟨i, hi, h⟩
      cases i with
      | zero => exact Or.inl (by simpa using h)
      | succ j => exact Or.inr ⟨j, by omega, by simpa using h⟩

theorem beforeLast_none_iff (hay pat : List Char) :
    beforeLast hay pat = none ↔ strContains hay pat = false := by
  rw [beforeLast, Option.map_eq_none', List.getLast?_eq_none_iff,
    List.filter_eq_nil_iff]
  constructor
  · intro h
    rw [Bool.eq_false_iff]
    intro hc
    obtain ⟨i, hi, hl⟩ := (strContains_iff_exists hay pat).1 hc
    exact (h i (List.mem_range.2 (by omega))) hl
  · intro h i hi
    intro hl
    have hl' : leadsWith pat (hay.drop i) = true := hl
    have : strContains hay pat = true :=
      (strContains_iff_exists hay pat).2
        ⟨i, by have := List.mem_range.1 hi; omega, hl'⟩
    rw [h] at this
    cases this

/-! ## Behaviour of one loop iteration -/

theorem applyPgnInfo_logID (r : Row) (o : Option PgnEntry) :
    (applyPgnInfo r o).logID = r.logID := by
  cases o <;> rfl

theorem applyPgnInfo_ret (r : Row) (o : Option PgnEntry) :
    (applyPgnInfo r o).ret = r.ret := by
  cases o <;> rfl

theorem applyPgnInfo_sz (r : Row) (o : Option PgnEntry) :
    (applyPgnInfo r o).sz = r.sz := by
  cases o <;> rfl

theorem stepLine_skip {tbl : List PgnEntry} {st : PipeState}
    {line : List Char} (hm : strContains line markerLit = false) :
    stepLine tbl st line = Except.ok st := by
  simp [stepLine, hm]

theorem stepLine_err (tbl : List PgnEntry) (st : PipeState)
    (line : List Char) (hm : strContains line markerLit = true)
    (hfail : requiredLits line = false) :
    ∃ e, stepLine tbl st line = Except.error e := by
  rcases hts : beforeLast line tsLit with _ | ts
  · exact ⟨PyAbort.attributeError (r"LogTimestamp"),
      by simp [stepLine, hm, hts]⟩
  rcases hid : digitsAfter line idLit with _ | idD
  · exact ⟨PyAbort.attributeError (r"LogID"),
      by simp [stepLine, hm, hts, hid]⟩
  rcases hret : digitsAfter line retLit with _ | retD
  · exact ⟨PyAbort.attributeError (r"Ret"),
      by simp [stepLine, hm, hts, hid, hret]⟩
  rcases hsz : digitsAfter line szLit with _ | szD
  · exact ⟨PyAbort.attributeError (r"Sz"),
      by simp [stepLine, hm, hts, hid, hret, hsz]⟩
  rcases hdata : afterFirst line dataLit with _ | afterData
  · refine ⟨PyAbort.attributeError (r"DataBytes"), ?_⟩
    rcases hblk : digitsAfter line blkLit with _ | b <;>
      simp [stepLine, hm, hts, hid, hret, hsz, hdata, hblk]
  · exfalso
    have h1 : strContains line tsLit = true := by
      by_contra h
      rw [Bool.not_eq_true, ← beforeLast_none_iff] at h
      rw [h] at hts
      cases hts
    have h2 : strContains line idLit = true := by
      by_contra h
      rw [Bool.not_eq_true, ← digitsAfter_none_iff] at h
      rw [h] at hid
      cases hid
    have h3 : strContains line retLit = true := by
      by_contra h
      rw [Bool.not_eq_true, ← digitsAfter_none_iff] at h
      rw [h] at hret
      cases hret
    have h4 : strContains line szLit = true := by
      by_contra h
      rw [Bool.not_eq_true, ← digitsAfter_none_iff] at h
      rw [h] at hsz
      cases hsz
    have h5 : strContains line dataLit = true := by
      by_contra h
      rw [Bool.not_eq_true, ← afterFirst_none_iff] at h
      rw [h] at hdata
      cases hdata
    rw [requiredLits, h1, h2, h3, h4, h5] at hfail
    cases hfail

theorem stepLine_short_spec {tbl : List PgnEntry} {st : PipeState}
    {line : List Char} (hm : strContains line markerLit = true)
    (hok : requiredLits line = true)
    (hshort : countPairs (dataGroupOf line) < 19) :
    stepLine tbl st line
      = Except.ok ⟨st.done, some (shortRowOf st line)⟩ := by
  have h5 := hok
  rw [requiredLits, Bool.and_eq_true, Bool.and_eq_true, Bool.and_eq_true,
    Bool.and_eq_true] at h5
  obtain ⟨⟨⟨⟨h1, h2⟩, h3⟩, h4⟩, hd⟩ := h5
  rcases hts : beforeLast line tsLit with _ | ts
  · rw [beforeLast_none_iff] at hts; rw [hts] at h1; cases h1
  rcases hid : digitsAfter line idLit with _ | idD
  · rw [digitsAfter_none_iff] at hid; rw [hid] at h2; cases h2
  rcases hret : digitsAfter line retLit with _ | retD
  · rw [digitsAfter_none_iff] at hret; rw [hret] at h3; cases h3
  rcases hsz : digitsAfter line szLit with _ | szD
  · rw [digitsAfter_none_iff] at hsz; rw [hsz] at h4; cases h4
  rcases hdata : afterFirst line dataLit with _ | afterData
  · rw [afterFirst_none_iff] at hdata; rw [hdata] at hd; cases hd
  have hgrp : dataGroupOf line = afterData.takeWhile isHexSp := by
    rw [dataGroupOf, hdata]
    rfl
  have hshort' : countPairs (afterData.takeWhile isHexSp) < 19 := by
    rwa [hgrp] at hshort
  rcases hblk : digitsAfter line blkLit with _ | b <;>
    simp [stepLine, hm, hts, hid, hret, hsz, hdata, hblk, hshort',
      shortRowOf, hgrp]

theorem stepLine_full_spec {tbl : List PgnEntry} {st : PipeState}
    {line : List Char} (hm : strContains line markerLit = true)
    (hok : requiredLits line = true)
    (hlong : ¬ countPairs (dataGroupOf line) < 19) :
    stepLine tbl st line
      = Except.ok ⟨st.done ++ [fullRowOf tbl st line], none⟩ := by
  have h5 := hok
  rw [requiredLits, Bool.and_eq_true, Bool.and_eq_true, Bool.and_eq_true,
    Bool.and_eq_true] at h5
  obtain ⟨⟨⟨⟨h1, h2⟩, h3⟩, h4⟩, hd⟩ := h5
  rcases hts : beforeLast line tsLit with _ | ts
  · rw [beforeLast_none_iff] at hts; rw [hts] at h1; cases h1
  rcases hid : digitsAfter line idLit with _ | idD
  · rw [digitsAfter_none_iff] at hid; rw [hid] at h2; cases h2
  rcases hret : digitsAfter line retLit with _ | retD
  · rw [digitsAfter_none_iff] at hret; rw [hret] at h3; cases h3
  rcases hsz : digitsAfter line szLit with _ | szD
  · rw [digitsAfter_none_iff] at hsz; rw [hsz] at h4; cases h4
  rcases hdata : afterFirst line dataLit with _ | afterData
  · rw [afterFirst_none_iff] at hdata; rw [hdata] at hd; cases hd
  have hgrp : dataGroupOf line = afterData.takeWhile isHexSp := by
    rw [dataGroupOf, hdata]
    rfl
  have hlong' : ¬ countPairs (afterData.takeWhile isHexSp) < 19 := by
    rwa [hgrp] at hlong
  rcases hblk : digitsAfter line blkLit with _ | b <;>
    simp [stepLine, hm, hts, hid, hret, hsz, hdata, hblk, hlong',
      fullRowOf, shortRowOf, hgrp]

theorem stepLine_isOk_iff (tbl : List PgnEntry) (st : PipeState)
    (line : List Char) (hm : strContains line markerLit = true) :
    exOk (stepLine tbl st line) = true ↔ requiredLits line = true := by
  constructor
  · intro h
    by_contra hfail
    rw [Bool.not_eq_true] at hfail
    obtain ⟨e, he⟩ := stepLine_err tbl st line hm hfail
    rw [he] at h
    cases h
  · intro hok
    by_cases hshort : countPairs (dataGroupOf line) < 19
    · rw [stepLine_short_spec hm hok hshort]
      rfl
    · rw [stepLine_full_spec hm hok hshort]
      rfl

theorem runLines_append (tbl : List PgnEntry) (st : PipeState)
    (xs ys : List (List Char)) :
    runLines tbl st (xs ++ ys)
      = match runLines tbl st xs with
        | Except.error e => Except.error e
        | Except.ok st' => runLines tbl st' ys := by
  induction xs generalizing st with
  | nil => rfl
  | cons x xs ih =>
    rw [List.cons_append, runLines, runLines]
    cases stepLine tbl st x with
    | error e => rfl
    | ok st' => exact ih st'

theorem head?_filter_eq_find? {α : Type} (p : α → Bool) (l : List α) :
    (l.filter p).head? = l.find? p := by
  induction l with
  | nil => rfl
  | cons a l ih =>
    by_cases h : p a = true <;>
      simp [List.filter_cons, List.find?_cons, h, ih]

/-! ## The claims -/

/-- C1: for every priority in `[0,7]`, PGN in `[0, 2^18-1]` and source in
`[0,255]` (as values of the hex-string fields handed to the IdBuilder),
the built `CanIdentifier` satisfies `(id >>> 26) &&& 0b111 = priority`,
`(id >>> 8) &&& 0x3FFFF = pgn`, `id &&& 0xFF = source`, and
`id < 2 ^ 29`. -/
theorem claim1_id_bitpack_roundtrip (pHex gHex sHex : List Char)
    (hp : hexStrVal pHex ≤ 7) (hg : hexStrVal gHex ≤ 2 ^ 18 - 1)
    (hs : hexStrVal sHex ≤ 255) :
    (hexStrVal (idBuilder pHex gHex sHex) >>> 26) &&& 7 = hexStrVal pHex ∧
    (hexStrVal (idBuilder pHex gHex sHex) >>> 8) &&& 0x3FFFF
      = hexStrVal gHex ∧
    hexStrVal (idBuilder pHex gHex sHex) &&& 0xFF = hexStrVal sHex ∧
    hexStrVal (idBuilder pHex gHex sHex) < 2 ^ 29 := by
  have hv : hexStrVal (idBuilder pHex gHex sHex)
      = hexStrVal pHex * 2 ^ 26 + hexStrVal gHex * 2 ^ 8
        + hexStrVal sHex :=
    idBuilder_val_inRange (by norm_num at hg ⊢; omega) (by omega)
  have m1 : (hexStrVal (idBuilder pHex gHex sHex) >>> 26) &&& 7
      = (hexStrVal (idBuilder pHex gHex sHex) / 2 ^ 26) % 2 ^ 3 := by
    rw [Nat.shiftRight_eq_div_pow]
    exact Nat.and_pow_two_sub_one_eq_mod _ 3
  have m2 : (hexStrVal (idBuilder pHex gHex sHex) >>> 8) &&& 0x3FFFF
      = (hexStrVal (idBuilder pHex gHex sHex) / 2 ^ 8) % 2 ^ 18 := by
    rw [Nat.shiftRight_eq_div_pow]
    exact Nat.and_pow_two_sub_one_eq_mod _ 18
  have m3 : hexStrVal (idBuilder pHex gHex sHex) &&& 0xFF
      = hexStrVal (idBuilder pHex gHex sHex) % 2 ^ 8 :=
    Nat.and_pow_two_sub_one_eq_mod _ 8
  refine ⟨?_, ?_, ?_, ?_⟩
  · rw [m1, hv]; norm_num at hg ⊢; omega
  · rw [m2, hv]; norm_num at hg ⊢; omega
  · rw [m3, hv]; norm_num at hg ⊢; omega
  · rw [hv]; norm_num at hg ⊢; omega

/-- Witness for C1 at the concrete scenario fields: priority `03`,
PGN `00FF20`, source `00`. -/
theorem claim1_id_bitpack_roundtrip_witness :
    (hexStrVal (priorityHexOf examplePayload) ≤ 7 ∧
      hexStrVal (pgnHexOf examplePayload) ≤ 2 ^ 18 - 1 ∧
      hexStrVal (sourceHexOf examplePayload) ≤ 255) ∧
    ((hexStrVal (idBuilder (priorityHexOf examplePayload)
          (pgnHexOf examplePayload) (sourceHexOf examplePayload)) >>> 26)
        &&& 7 = hexStrVal (priorityHexOf examplePayload) ∧
      (hexStrVal (idBuilder (priorityHexOf examplePayload)
          (pgnHexOf examplePayload) (sourceHexOf examplePayload)) >>> 8)
        &&& 0x3FFFF = hexStrVal (pgnHexOf examplePayload) ∧
      hexStrVal (idBuilder (priorityHexOf examplePayload)
          (pgnHexOf examplePayload) (sourceHexOf examplePayload))
        &&& 0xFF = hexStrVal (sourceHexOf examplePayload) ∧
      hexStrVal (idBuilder (priorityHexOf examplePayload)
          (pgnHexOf examplePayload) (sourceHexOf examplePayload))
        < 2 ^ 29) :=
  ⟨⟨by decide, by decide, by decide⟩,
    claim1_id_bitpack_roundtrip _ _ _ (by decide) (by decide) (by decide)⟩

/-- C2: for every accepted 19-byte (38-hex-character) payload, the
decoded PGN integer is the big-endian reassembly `b2<<16 ||| b1<<8 ||| b0`
of the three PGN bytes `b0 b1 b2` stored little-endian at byte offsets
5, 6, 7. -/
theorem claim2_pgn_byte_reversal (s : List Char) (h : s.length = 38) :
    pgnDecOf s = byteAt s 7 <<< 16 ||| byteAt s 6 <<< 8 ||| byteAt s 5 := by
  have h7 : byteAt s 7 = hexStrVal (sliceStr s 14 16) := rfl
  have h6 : byteAt s 6 = hexStrVal (sliceStr s 12 14) := rfl
  have h5 : byteAt s 5 = hexStrVal (sliceStr s 10 12) := rfl
  rw [shift_or_decomp _ _ _ (byteAt_lt s 6) (byteAt_lt s 5),
    h7, h6, h5, pgnDecOf, pgnHexOf, hexStrVal_append, hexStrVal_append,
    sliceStr_length, sliceStr_length, h]
  norm_num
  ring

/-- Witness for C2 at the concrete scenario payload. -/
theorem claim2_pgn_byte_reversal_witness :
    examplePayload.length = 38 ∧
    pgnDecOf examplePayload
      = byteAt examplePayload 7 <<< 16 ||| byteAt examplePayload 6 <<< 8
        ||| byteAt examplePayload 5 :=
  ⟨by decide, claim2_pgn_byte_reversal examplePayload (by decide)⟩

/-- C3: on the concrete payload `0011EEB00020FF000300FF1021000000FFD0FF`
the decoder yields priority 3, source 0, PGN 65312 (`00FF20`),
destination 255, and the built identifier is `0x0CFF2000 = 218046464`. -/
theorem claim3_concrete_scenario :
    hexStrVal (priorityHexOf examplePayload) = 3 ∧
    hexStrVal (sourceHexOf examplePayload) = 0 ∧
    pgnHexOf examplePayload = String.toList (r"00FF20") ∧
    pgnDecOf examplePayload = 65312 ∧
    hexStrVal (destinationHexOf examplePayload) = 255 ∧
    canIdOf examplePayload = 218046464 := by
  decide

/-- C4 counterexample: for the out-of-range priority byte `08` the built
identifier is `8 <<< 26 = 2^29`, not the masked value
`(8 &&& 0b111) <<< 26 ||| ... = 0`: the IdBuilder does not clamp by
masking. -/
theorem claim4_masking_refuted :
    hexStrVal (idBuilder (String.toList (r"08")) (String.toList (r"00"))
        (String.toList (r"00")))
      ≠ ((hexStrVal (String.toList (r"08")) &&& 7) <<< 26
          ||| (hexStrVal (String.toList (r"00")) &&& 0x3FFFF) <<< 8
          ||| (hexStrVal (String.toList (r"00")) &&& 0xFF)) := by
  decide

/-- C4 amended: for every input the built identifier equals the plain
concatenation `p * 2^(wg + ws) + g * 2^ws + s`, where `wg`/`ws` are the
actual field widths `max 18 |bin g|` / `max 8 |bin s|`: `zfill` pads but
never truncates, so out-of-range values are propagated unmasked (their
field widens) rather than clamped; for in-range inputs this coincides
with `p <<< 26 ||| g <<< 8 ||| s`. -/
theorem claim4_unmasked_concat (pHex gHex sHex : List Char) :
    hexStrVal (idBuilder pHex gHex sHex)
      = hexStrVal pHex
          * 2 ^ (fieldWidth (hexStrVal gHex) 18 +
              fieldWidth (hexStrVal sHex) 8)
        + hexStrVal gHex * 2 ^ fieldWidth (hexStrVal sHex) 8
        + hexStrVal sHex :=
  idBuilder_val pHex gHex sHex

/-- C5: evaluation at the failing payload — with stored PGN bytes
`00 00 FF` the decoder outputs PGN `0xFF0000 = 16711680`, which is not
below `2^18`: no 18-bit masking happens anywhere in the code. -/
theorem claim5_pgn_overflow_eval :
    pgnDecOf overflowPayload = 16711680 ∧
    ¬ pgnDecOf overflowPayload < 2 ^ 18 := by
  decide

/-- C6 counterexample: a line with the `Data:` marker whose `ID = `
pattern cannot match does not get dropped — the whole run aborts with
the uncaught `AttributeError`, and the following (perfectly valid) line
is never processed, although alone it decodes fine. -/
theorem claim6_abort_refutes_drop :
    runPipeline [] [badNoIdLine, goodLine]
      = Except.error (PyAbort.attributeError (r"LogID")) ∧
    exOk (runPipeline [] [goodLine]) = true := by
  decide

/-- C6 amended: a line that contains the `Data:` marker but in which a
required field pattern fails to match raises an uncaught error that
aborts the whole run: no subsequent line is processed and no output at
all is produced, wherever the bad line sits in the input. -/
theorem claim6_required_field_aborts_run (tbl : List PgnEntry)
    (pre rest : List (List Char)) (line : List Char)
    (hm : strContains line markerLit = true)
    (hfail : requiredLits line = false) :
    exOk (runPipeline tbl (pre ++ line :: rest)) = false := by
  cases h : runLines tbl {} pre with
  | error e =>
    simp [runPipeline, runLines_append, h, exOk]
  | ok st1 =>
    obtain ⟨e, he⟩ := stepLine_err tbl st1 line hm hfail
    simp [runPipeline, runLines_append, h, runLines, he, exOk]

/-- Witness for the amended C6 at the concrete bad line. -/
theorem claim6_required_field_aborts_run_witness :
    strContains badNoIdLine markerLit = true ∧
    requiredLits badNoIdLine = false ∧
    exOk (runPipeline [] ([] ++ badNoIdLine :: [])) = false :=
  ⟨by decide, by decide,
    claim6_required_field_aborts_run [] [] [] badNoIdLine
      (by decide) (by decide)⟩

/-- C7: evaluation at the failing input — when the last eligible line is
dropped by the short-payload gate, the half-written row stays in the
final dataframe: the log-entry cells are filled, every decoded cell is
still unset.  The in-code comment at line 144 promises the unfinished
row "will get overwritten on the next iteration", which never happens
for the last line. -/
theorem claim7_leftover_row_eval :
    runPipeline [] [shortLine] = Except.ok [shortLineRow] ∧
    shortLineRow.logID = some (String.toList (r"00")) ∧
    shortLineRow.pgn = none ∧
    shortLineRow.priority = none ∧
    shortLineRow.idHex = none := by
  decide

/-- C8: a line whose data section counts fewer than 19 two-hex-digit
groups is dropped silently: the step succeeds (no error), no finished
record is appended, and none of the decoded cells of the pending row is
touched — the frame decoder is never reached, whatever the other fields
hold. -/
theorem claim8_short_payload_gate (tbl : List PgnEntry) (st : PipeState)
    (line : List Char) (hm : strContains line markerLit = true)
    (hok : requiredLits line = true)
    (hshort : countPairs (dataGroupOf line) < 19) :
    exOk (stepLine tbl st line) = true ∧
    (stepState (stepLine tbl st line)).done = st.done ∧
    (writtenRow (stepState (stepLine tbl st line))).pgn
      = (st.cur.getD emptyRow).pgn ∧
    (writtenRow (stepState (stepLine tbl st line))).priority
      = (st.cur.getD emptyRow).priority ∧
    (writtenRow (stepState (stepLine tbl st line))).source
      = (st.cur.getD emptyRow).source ∧
    (writtenRow (stepState (stepLine tbl st line))).idHex
      = (st.cur.getD emptyRow).idHex ∧
    (writtenRow (stepState (stepLine tbl st line))).dataBytes
      = (st.cur.getD emptyRow).dataBytes := by
  rw [stepLine_short_spec hm hok hshort]
  exact ⟨rfl, rfl, rfl, rfl, rfl, rfl, rfl⟩

/-- Witness for C8 at the concrete short line. -/
theorem claim8_short_payload_gate_witness :
    (strContains shortLine markerLit = true ∧
      requiredLits shortLine = true ∧
      countPairs (dataGroupOf shortLine) < 19) ∧
    (exOk (stepLine [] {} shortLine) = true ∧
      (stepState (stepLine [] {} shortLine)).done
        = PipeState.done {} ∧
      (writtenRow (stepState (stepLine [] {} shortLine))).pgn
        = ((PipeState.cur {}).getD emptyRow).pgn ∧
      (writtenRow (stepState (stepLine [] {} shortLine))).priority
        = ((PipeState.cur {}).getD emptyRow).priority ∧
      (writtenRow (stepState (stepLine [] {} shortLine))).source
        = ((PipeState.cur {}).getD emptyRow).source ∧
      (writtenRow (stepState (stepLine [] {} shortLine))).idHex
        = ((PipeState.cur {}).getD emptyRow).idHex ∧
      (writtenRow (stepState (stepLine [] {} shortLine))).dataBytes
        = ((PipeState.cur {}).getD emptyRow).dataBytes) :=
  ⟨⟨by decide, by decide, by decide⟩,
    claim8_short_payload_gate [] {} shortLine
      (by decide) (by decide) (by decide)⟩

/-- C9: the annotator lookup is total and pure: it always equals the
first-match search `find?` (so with duplicated PGNs the first
encountered entry wins), and an unmatched PGN yields no annotation —
the row passes through with its label and coverage cells untouched. -/
theorem claim9_lookup_total_first_wins (tbl : List PgnEntry) (p : Nat) :
    pgnLookup tbl p = tbl.find? (fun e => e.pgn == p) ∧
    (tbl.all (fun e => e.pgn != p) = true →
      pgnLookup tbl p = none ∧
      ∀ r : Row, applyPgnInfo r (pgnLookup tbl p) = r) := by
  constructor
  · exact head?_filter_eq_find? _ tbl
  · intro hall
    simp only [List.all_eq_true, bne_iff_ne, ne_eq,
      decide_eq_true_eq] at hall
    have hnone : pgnLookup tbl p = none := by
      rw [pgnLookup, head?_filter_eq_find?, List.find?_eq_none]
      intro x hx
      simp only [beq_iff_eq]
      exact hall x hx
    refine ⟨hnone, fun r => ?_⟩
    rw [hnone]
    rfl

/-- Witness for C9 on a table with a duplicated PGN, at an unmatched
key. -/
theorem claim9_lookup_total_first_wins_witness :
    dupTable.all (fun e => e.pgn != 999) = true ∧
    pgnLookup dupTable 999 = dupTable.find? (fun e => e.pgn == 999) ∧
    pgnLookup dupTable 999 = none ∧
    applyPgnInfo emptyRow (pgnLookup dupTable 999) = emptyRow :=
  ⟨by decide, (claim9_lookup_total_first_wins dupTable 999).1,
    ((claim9_lookup_total_first_wins dupTable 999).2 (by decide)).1,
    ((claim9_lookup_total_first_wins dupTable 999).2 (by decide)).2
      emptyRow⟩

/-- C10 counterexample: a line holding the bare `Data:` marker, the
` (` delimiter and the three integer prefixes (each followed by zero
digits) still fails hard, because the data regex needs `Data: ` with
the trailing space: the hard-failure condition is not limited to the
four patterns the claim lists. -/
theorem claim10_data_space_refuted :
    strContains noSpaceDataLine markerLit = true ∧
    strContains noSpaceDataLine tsLit = true ∧
    strContains noSpaceDataLine idLit = true ∧
    strContains noSpaceDataLine retLit = true ∧
    strContains noSpaceDataLine szLit = true ∧
    exOk (stepLine [] {} noSpaceDataLine) = false := by
  decide

/-- C10 amended: for a line with the `Data:` marker, parsing succeeds
iff the five literals ` (`, `ID = `, `Ret = `, `Sz = ` and `Data: `
(the marker with its trailing space) are all present — the digit runs
may be empty, in which case the stored field is the empty string, since
each integer cell receives exactly the (possibly empty) digit run
following its literal. -/
theorem claim10_success_iff_literals (tbl : List PgnEntry)
    (st : PipeState) (line : List Char)
    (hm : strContains line markerLit = true) :
    (exOk (stepLine tbl st line) = true ↔ requiredLits line = true) ∧
    (requiredLits line = true →
      (writtenRow (stepState (stepLine tbl st line))).logID
          = digitsAfter line idLit ∧
      (writtenRow (stepState (stepLine tbl st line))).ret
          = digitsAfter line retLit ∧
      (writtenRow (stepState (stepLine tbl st line))).sz
          = digitsAfter line szLit) := by
  refine ⟨stepLine_isOk_iff tbl st line hm, ?_⟩
  intro hok
  by_cases hshort : countPairs (dataGroupOf line) < 19
  · rw [stepLine_short_spec hm hok hshort]
    exact ⟨rfl, rfl, rfl⟩
  · rw [stepLine_full_spec hm hok hshort]
    refine ⟨?_, ?_, ?_⟩ <;>
      simp [writtenRow, stepState, List.getLastD_concat, fullRowOf,
        applyPgnInfo_logID, applyPgnInfo_ret, applyPgnInfo_sz,
        shortRowOf]

/-- Witness for the amended C10 at a line whose integer fields carry
zero digits: parsing succeeds and the stored fields are empty. -/
theorem claim10_success_iff_literals_witness :
    strContains zeroDigitLine markerLit = true ∧
    ((exOk (stepLine [] {} zeroDigitLine) = true
        ↔ requiredLits zeroDigitLine = true) ∧
      (requiredLits zeroDigitLine = true →
        (writtenRow (stepState (stepLine [] {} zeroDigitLine))).logID
            = digitsAfter zeroDigitLine idLit ∧
        (writtenRow (stepState (stepLine [] {} zeroDigitLine))).ret
            = digitsAfter zeroDigitLine retLit ∧
        (writtenRow (stepState (stepLine [] {} zeroDigitLine))).sz
            = digitsAfter zeroDigitLine szLit)) :=
  ⟨by decide,
    claim10_success_iff_literals [] {} zeroDigitLine (by decide)⟩


end J1939
